import Mathlib

/-!
Shallow embedding of the `mcc_integration` package (files `mcc_api.py` and
`export_team_cards.py`): the season aggregation pipeline `get_mansfield_teams`,
the card exporter `generate_team_cards_json`, the read-through caches of
`Season`, and `MCCApi.get_avatar_image`.

Modelling conventions:
* JSON member records and team records become structures whose fields carry the
  JSON keys used by the Python code (`MemberId`, `SkipID`, `Day`, ...).
* Python `dict.get` of a possibly-missing id field is modelled with `Option Nat`
  (absent / JSON null becomes `none`); `member_id == team_data.get("LeadID")`
  becomes `some member_id == LeadID`, which like Python is `False` against null.
* The insertion-ordered Python dict `mansfield_teams` becomes an association
  list `List (Option Nat × Team)` to which a key is appended the first time it
  is seen; `key in dict` becomes `find?` on the first component.
* Filesystem and network effects are passed explicitly: a `World` holds the
  cache files' contents and what the network would answer, and each operation
  returns its result together with the updated state and the number of network
  requests it issued.
* The decimal string form that `json.dumps` gives an integer dict key is
  modelled as its little-endian digit list `Nat.digits 10 k`, and `int(key)`
  on load as `Nat.ofDigits 10`.
-/

/-- One entry of the season member list JSON (`members_json` in
`get_mansfield_teams`): keys `MemberId`, `FirstName`, `LastName`, `Gender`. -/
structure MemberData where
  MemberId : Nat
  FirstName : String
  LastName : String
  Gender : String
deriving DecidableEq

/-- One team record from `season.get_member_team_data` (`team_entry` in
`get_mansfield_teams`): keys `League`, `Skip`, `SkipID`, `LeadID`, `SecondID`,
`ViceID`, `FifthID`, `Day`, `Time`; the role ids are optional member ids. -/
structure TeamEntry where
  League : String
  Skip : String
  SkipID : Option Nat
  LeadID : Option Nat
  SecondID : Option Nat
  ViceID : Option Nat
  FifthID : Option Nat
  Day : String
  Time : String
deriving DecidableEq

/-- A member entry appended to `mansfield_teams[skip_id]["members"]` in the
second pass of `get_mansfield_teams`. -/
structure TeamMember where
  member_id : Nat
  first_name : String
  last_name : String
  full_name : String
  position : Option String
deriving DecidableEq

/-- The team dictionary built in `get_mansfield_teams` (keys `skip_name`,
`skip_id`, `lead_id`, `second_id`, `vice_id`, `fifth_id`, `day`, `time`,
`league`, `season`, `members`). -/
structure Team where
  skip_name : String
  skip_id : Option Nat
  lead_id : Option Nat
  second_id : Option Nat
  vice_id : Option Nat
  fifth_id : Option Nat
  day : String
  time : String
  league : String
  season : Nat
  members : List TeamMember
deriving DecidableEq

/-- An entry of the `mansfield_members` list: the member's identity together
with the matched Mansfield `team_data` record. -/
structure Candidate where
  member_id : Nat
  first_name : String
  last_name : String
  full_name : String
  team_data : TeamEntry
deriving DecidableEq

/-- The `full_name` field: first name, a space, last name. -/
def full_name_of (first_name last_name : String) : String :=
  first_name ++ " " ++ last_name

/-- Python substring containment `needle in hay`, on the character lists of the
two strings. -/
def pyIn (needle hay : String) : Bool :=
  decide (needle.data <:+: hay.data)

/-- The position computation of `get_mansfield_teams` (mcc_api.py lines
289-300): the if/elif chain comparing `member_id` against the record's role
ids in the order Lead, Second, Vice, Skip, Fifth; `None` when none match. -/
def positionOf (member_id : Nat) (team_data : TeamEntry) : Option String :=
  if some member_id == team_data.LeadID then some "Lead"
  else if some member_id == team_data.SecondID then some "Second"
  else if some member_id == team_data.ViceID then some "Vice"
  else if some member_id == team_data.SkipID then some "Skip"
  else if some member_id == team_data.FifthID then some "Fifth"
  else none

/-- The record's five named role ids in the priority order the if/elif chain
of lines 289-300 tests them. -/
def roleIds (team_data : TeamEntry) : List (String × Option Nat) :=
  [("Lead", team_data.LeadID), ("Second", team_data.SecondID),
   ("Vice", team_data.ViceID), ("Skip", team_data.SkipID),
   ("Fifth", team_data.FifthID)]

/-- The new team dictionary created at mcc_api.py lines 260-272 when a skip id
is first seen. -/
def newTeam (year : Nat) (team_entry : TeamEntry) : Team :=
  { skip_name := team_entry.Skip
    skip_id := team_entry.SkipID
    lead_id := team_entry.LeadID
    second_id := team_entry.SecondID
    vice_id := team_entry.ViceID
    fifth_id := team_entry.FifthID
    day := team_entry.Day
    time := team_entry.Time
    league := team_entry.League
    season := year
    members := [] }

/-- The `mansfield_members` entry built at mcc_api.py lines 249-255. -/
def mkCandidate (m : MemberData) (team_entry : TeamEntry) : Candidate :=
  { member_id := m.MemberId
    first_name := m.FirstName
    last_name := m.LastName
    full_name := full_name_of m.FirstName m.LastName
    team_data := team_entry }

/-- The team-creation step at mcc_api.py lines 258-272: append a new team
keyed by the candidate record's `SkipID` unless that key is already a key of
`mansfield_teams`. -/
def teamStep (year : Nat) (ts : List (Option Nat × Team)) (c : Candidate) :
    List (Option Nat × Team) :=
  if ((ts.find? (fun kv => kv.1 == c.team_data.SkipID)).isSome) then ts
  else ts ++ [(c.team_data.SkipID, newTeam year c.team_data)]

/-- One iteration of the first-pass loop body (lines 230-278) on the pair
(`mansfield_teams`, `mansfield_members`): skip members whose gender is not
`"M"`; otherwise scan the member's team records for the first one whose
league is `"Mansfield"` (the `break` at line 274 makes this `find?`); on a
match append the candidate and run the team-creation step. -/
def pass1Step (year : Nat) (teamDataOf : Nat → List TeamEntry)
    (acc : List (Option Nat × Team) × List Candidate) (m : MemberData) :
    List (Option Nat × Team) × List Candidate :=
  if m.Gender == "M" then
    match (teamDataOf m.MemberId).find? (fun te => te.League == "Mansfield") with
    | some te => (teamStep year acc.1 (mkCandidate m te), acc.2 ++ [mkCandidate m te])
    | none => acc
  else acc

/-- The first pass of `get_mansfield_teams` (lines 230-278): the loop body
folded over the member list starting from the empty dict and list. -/
def pass1 (year : Nat) (teamDataOf : Nat → List TeamEntry)
    (members : List MemberData) :
    List (Option Nat × Team) × List Candidate :=
  members.foldl (pass1Step year teamDataOf) ([], [])

/-- The `mansfield_members` list produced by the first pass. The candidate
component of `pass1` does not depend on the year argument (`pass1_snd` below
identifies it with a `filterMap` in which the year does not occur), so it is
taken at year 0. -/
def mansfieldCandidates (teamDataOf : Nat → List TeamEntry)
    (members : List MemberData) : List Candidate :=
  (pass1 0 teamDataOf members).2

/-- The `mansfield_teams` dictionary produced by the first pass. -/
def mansfieldTeamsInit (year : Nat) (teamDataOf : Nat → List TeamEntry)
    (members : List MemberData) : List (Option Nat × Team) :=
  (pass1 year teamDataOf members).1

/-- The `TeamMember` entry appended at mcc_api.py lines 302-308. -/
def mkTeamMember (c : Candidate) : TeamMember :=
  { member_id := c.member_id
    first_name := c.first_name
    last_name := c.last_name
    full_name := c.full_name
    position := positionOf c.member_id c.team_data }

/-- `mansfield_teams[skip_id]["members"].append(...)`: update the entry of the
association list whose key equals `sid` (keys are unique by construction, so
at most one entry changes). -/
def appendMember (teams : List (Option Nat × Team)) (sid : Option Nat)
    (tm : TeamMember) : List (Option Nat × Team) :=
  teams.map (fun kv =>
    if kv.1 == sid then (kv.1, { kv.2 with members := kv.2.members ++ [tm] })
    else kv)

/-- One iteration of the second-pass loop body (lines 283-308): if the
candidate record's skip id is a key of the team dictionary, append a
`TeamMember` entry with the computed position to that team. -/
def pass2Step (ts : List (Option Nat × Team)) (c : Candidate) :
    List (Option Nat × Team) :=
  if ((ts.find? (fun kv => kv.1 == c.team_data.SkipID)).isSome) then
    appendMember ts c.team_data.SkipID (mkTeamMember c)
  else ts

/-- The second pass of `get_mansfield_teams` (lines 283-308): the loop body
folded over `mansfield_members`. -/
def pass2 (teams : List (Option Nat × Team)) (cands : List Candidate) :
    List (Option Nat × Team) :=
  cands.foldl pass2Step teams

/-- `get_mansfield_teams` (mcc_api.py lines 210-318), with the season's member
list and the cache-backed per-member team data passed in explicitly: first
pass builds candidates and teams, second pass populates the member lists, and
the result is the teams whose `day` contains `"Wednesday"` as a substring, in
dictionary insertion order. -/
def get_mansfield_teams (year : Nat) (teamDataOf : Nat → List TeamEntry)
    (members : List MemberData) : List Team :=
  let p := pass1 year teamDataOf members
  ((pass2 p.1 p.2).map Prod.snd).filter (fun t => pyIn "Wednesday" t.day)

/-- The `position_order` lookup of export_team_cards.py line 78-81:
`position_order.get(m["position"], 99)`, where a missing or unrecognized
position (including Python `None`) falls back to 99. -/
def position_order (p : Option String) : Nat :=
  if p == some "Lead" then 1
  else if p == some "Second" then 2
  else if p == some "Vice" then 3
  else if p == some "Skip" then 4
  else if p == some "Fifth" then 5
  else 99

/-- A processed member dictionary of the exported card (lines 87-108).
`avatar = some v` models the `"avatar"` key being present with value `v`
(`v = none` is JSON null); `avatar_path` models the `"avatar_path"` key. -/
structure CardMember where
  member_id : Nat
  first_name : String
  last_name : String
  full_name : String
  position : Option String
  avatar : Option (Option String)
  avatar_path : Option String
deriving DecidableEq

/-- A `team_card` dictionary (lines 112-120). -/
structure TeamCard where
  team_name : String
  skip_id : Option Nat
  day : String
  time : String
  league : String
  season : Nat
  members : List CardMember
deriving DecidableEq

/-- The member-processing of lines 86-110, with the effectful environment
passed in: `avatarPaths` is the result of `download_team_avatars`, `b64`
models `avatar_to_base64` (`none` on failure), `relpathOf` models
`os.path.relpath` against the output directory. -/
def mkCardMember (embed_avatars : Bool) (avatarPaths : Nat → Option String)
    (b64 : String → Option String) (relpathOf : String → String)
    (m : TeamMember) : CardMember :=
  match avatarPaths m.member_id with
  | some path =>
      if embed_avatars then
        { member_id := m.member_id, first_name := m.first_name,
          last_name := m.last_name, full_name := m.full_name,
          position := m.position, avatar := some (b64 path),
          avatar_path := none }
      else
        { member_id := m.member_id, first_name := m.first_name,
          last_name := m.last_name, full_name := m.full_name,
          position := m.position, avatar := none,
          avatar_path := some (relpathOf path) }
  | none =>
      { member_id := m.member_id, first_name := m.first_name,
        last_name := m.last_name, full_name := m.full_name,
        position := m.position, avatar := some none, avatar_path := none }

/-- The Boolean comparison `sorted` uses at lines 79-82: compare members by
`position_order` of their position. -/
def memberLe (a b : TeamMember) : Bool :=
  decide (position_order a.position ≤ position_order b.position)

/-- One `team_card` built from a team (lines 76-120): members sorted stably by
position order (Python `sorted` is stable, as is `List.mergeSort`), then
processed into card members. -/
def mkTeamCard (embed_avatars : Bool) (avatarPaths : Nat → Option String)
    (b64 : String → Option String) (relpathOf : String → String)
    (team : Team) : TeamCard :=
  { team_name := team.skip_name
    skip_id := team.skip_id
    day := team.day
    time := team.time
    league := team.league
    season := team.season
    members := ((team.members.mergeSort memberLe).map
      (mkCardMember embed_avatars avatarPaths b64 relpathOf)) }

/-- The Boolean comparison `team_cards.sort` uses at line 125: compare cards
by `team_name`. -/
def cardLe (a b : TeamCard) : Bool :=
  decide (a.team_name ≤ b.team_name)

/-- The card-building and sorting portion of `generate_team_cards_json`
(lines 74-125): build one card per team in input order, then sort the cards
stably by `team_name`. -/
def build_team_cards (embed_avatars : Bool) (avatarPaths : Nat → Option String)
    (b64 : String → Option String) (relpathOf : String → String)
    (teams : List Team) : List TeamCard :=
  ((teams.map (mkTeamCard embed_avatars avatarPaths b64 relpathOf)).mergeSort cardLe)

/-- The parameter names of `def get_mansfield_teams(year: Optional[int] = None)`
(mcc_api.py line 210). -/
def get_mansfield_teams_params : List String :=
  ["year"]

/-- Python call semantics for keyword arguments: a call raises `TypeError`
unless every keyword argument's name is among the callee's parameter names. -/
def kwargsAccepted (params kwargs : List String) : Bool :=
  kwargs.all (fun k => params.contains k)

/-- `generate_team_cards_json` (export_team_cards.py lines 39-151), with the
season data and effect environment passed in. The body's call
`get_mansfield_teams(year, filter_times=filter_times)` (line 63) forwards the
keyword argument `filter_times`, which `get_mansfield_teams` does not accept,
so the call raises `TypeError`; the surrounding `except` block logs it and
exits non-zero, modelled as `Except.error`. On the (unreachable) non-raising
path the function returns `none` when no teams were found (the early `return`
at line 67) and the built cards otherwise. The `filter_times` argument is
never consulted anywhere else, faithfully to the source. -/
def generate_team_cards_json (year : Nat) (embed_avatars : Bool)
    (filter_times : List String) (teamDataOf : Nat → List TeamEntry)
    (members : List MemberData) (avatarPaths : Nat → Option String)
    (b64 : String → Option String) (relpathOf : String → String) :
    Except String (Option (List TeamCard)) :=
  if kwargsAccepted get_mansfield_teams_params ["filter_times"] then
    let teams := get_mansfield_teams year teamDataOf members
    if teams.isEmpty then Except.ok none
    else Except.ok (some (build_team_cards embed_avatars avatarPaths b64
      relpathOf teams))
  else
    Except.error
      "TypeError: get_mansfield_teams() got an unexpected keyword argument"

/-- The HTTP response of the avatar endpoint: status code and body length in
bytes (`len(response.content)`). -/
structure AvatarResponse where
  status : Nat
  contentLen : Nat
deriving DecidableEq

/-- `os.path.join(AVATAR_CACHE_DIR, f"{member_id}.jpg")`. -/
def avatar_cache_path (member_id : Nat) : String :=
  "cache/avatars/" ++ toString member_id ++ ".jpg"

/-- `MCCApi.get_avatar_image` (mcc_api.py lines 123-148), with the effectful
environment explicit: `cacheExists` is whether the member's avatar cache file
exists beforehand, `resp` is the response the network would return (`none`
models the request raising, e.g. a timeout). Returns the result (`some` cache
path or `none`) together with whether the cache file exists afterwards. The
Python truthiness guard `if not member_id` is the `member_id == 0` test. Only
a 200 status with a body strictly larger than 1000 bytes writes the file and
returns the path; every other fetch outcome falls through to the final
`return`, which re-checks existence and yields `None`. -/
def get_avatar_image (cacheExists : Bool) (resp : Option AvatarResponse)
    (member_id : Nat) : Option String × Bool :=
  if member_id == 0 then (none, cacheExists)
  else if !cacheExists then
    match resp with
    | none => (none, false)
    | some r =>
        if r.status == 200 && decide (1000 < r.contentLen) then
          (some (avatar_cache_path member_id), true)
        else (none, false)
  else (some (avatar_cache_path member_id), true)

/-- The effectful environment of one `Season`: the two cache files' current
contents (`none` = the file does not exist) and what the portal would answer.
The team-record file stores its member-id keys as decimal strings, modelled
as base-10 digit lists. -/
structure World where
  memberJsonFile : Option (List MemberData)
  teamDataFile : Option (List (List Nat × List TeamEntry))
  netMembers : List MemberData
  netTeams : Nat → List TeamEntry

/-- `json.dumps` on the in-memory team-data dict: integer keys become their
decimal-string (digit-list) form. -/
def encodeKeys (d : List (Nat × List TeamEntry)) :
    List (List Nat × List TeamEntry) :=
  d.map (fun kv => (Nat.digits 10 kv.1, kv.2))

/-- The key normalization at mcc_api.py lines 184-187: `int(key)` on every
string key of the loaded document. -/
def decodeKeys (doc : List (List Nat × List TeamEntry)) :
    List (Nat × List TeamEntry) :=
  doc.map (fun kv => (Nat.ofDigits 10 kv.1, kv.2))

/-- The lazy load of `self._member_team_datas` (lines 178-187): an absent file
yields the empty dict, otherwise the file is parsed and its keys are
converted to integers. -/
def loadTeamDatas (w : World) : List (Nat × List TeamEntry) :=
  match w.teamDataFile with
  | none => []
  | some doc => decodeKeys doc

/-- Result of one `Season.get_members_json` call: the returned document, the
world afterwards, and how many network requests were made. -/
structure MembersResult where
  val : List MemberData
  world : World
  calls : Nat

/-- `Season.get_members_json` (mcc_api.py lines 166-174): if the per-year
member JSON file exists it is parsed and returned with no network call;
otherwise the member list is fetched from the client, written to the file,
and read back. -/
def season_get_members_json (w : World) : MembersResult :=
  match w.memberJsonFile with
  | some doc => { val := doc, world := w, calls := 0 }
  | none =>
      { val := w.netMembers
        world := { w with memberJsonFile := some w.netMembers }
        calls := 1 }

/-- Result of one `Season.get_member_team_data` call: the member's team
records, the world afterwards, the in-memory dict afterwards (always loaded
after the call), and how many network requests were made. -/
structure TeamDataResult where
  val : List TeamEntry
  world : World
  cache : List (Nat × List TeamEntry)
  calls : Nat

/-- `Season.get_member_team_data` (mcc_api.py lines 176-199): lazily load the
in-memory dict from the per-year file (`st = none` models
`self._member_team_datas is None`); on a key hit return the stored records
with no network call; on a miss fetch the member's records, add them to the
dict, and rewrite the whole file with stringified keys. -/
def season_get_member_team_data (w : World)
    (st : Option (List (Nat × List TeamEntry))) (member_id : Nat) :
    TeamDataResult :=
  let d := match st with
    | some d0 => d0
    | none => loadTeamDatas w
  match d.find? (fun kv => kv.1 == member_id) with
  | some kv => { val := kv.2, world := w, cache := d, calls := 0 }
  | none =>
      let data := w.netTeams member_id
      let d2 := d ++ [(member_id, data)]
      { val := data
        world := { w with teamDataFile := some (encodeKeys d2) }
        cache := d2
        calls := 1 }

/-- The state threaded through the aggregation's data-access loop: the world,
the season's in-memory team-data dict, and the network calls made so far. -/
structure RunState where
  world : World
  cache : Option (List (Nat × List TeamEntry))
  calls : Nat

/-- One iteration of the data-access loop of `get_mansfield_teams` (mcc_api.py
lines 230-242): female members are skipped, male members trigger one
`season.get_member_team_data` call. -/
def aggStep (acc : RunState) (mem : MemberData) : RunState :=
  if mem.Gender == "M" then
    let r := season_get_member_team_data acc.world acc.cache mem.MemberId
    { world := r.world, cache := some r.cache, calls := acc.calls + r.calls }
  else acc

/-- The data-access behaviour of one `get_mansfield_teams` run (mcc_api.py
lines 222-242): load the member list through the member-json cache, then call
`season.get_member_team_data` once for every male member, in list order,
threading the season state and counting network requests. -/
def aggregationRun (w : World) : RunState :=
  let m := season_get_members_json w
  m.val.foldl aggStep { world := m.world, cache := none, calls := m.calls }

/-- How one member-list entry contributes to `mansfield_members`: `none` for a
female member or one without a Mansfield record, otherwise the candidate built
from the first Mansfield record. -/
def candOf (teamDataOf : Nat → List TeamEntry) (m : MemberData) :
    Option Candidate :=
  if m.Gender == "M" then
    ((teamDataOf m.MemberId).find? (fun te => te.League == "Mansfield")).map
      (mkCandidate m)
  else none

/-- The team dictionary as a fold of the team-creation step over a candidate
list, from a given starting dictionary. -/
def buildTeamsAux (year : Nat) (ts : List (Option Nat × Team))
    (cs : List Candidate) : List (Option Nat × Team) :=
  cs.foldl (teamStep year) ts

/-- The team dictionary as a fold of the team-creation step over a candidate
list. -/
def buildTeams (year : Nat) (cs : List Candidate) : List (Option Nat × Team) :=
  buildTeamsAux year [] cs

theorem pass1Step_eq (year : Nat) (d : Nat → List TeamEntry)
    (acc : List (Option Nat × Team) × List Candidate) (m : MemberData) :
    pass1Step year d acc m =
      match candOf d m with
      | some c => (teamStep year acc.1 c, acc.2 ++ [c])
      | none => acc := by
  unfold pass1Step candOf
  by_cases hg : m.Gender == "M"
  · simp only [hg, if_pos]
    cases (d m.MemberId).find? (fun te => te.League == "Mansfield") <;> simp
  · simp [hg]

theorem pass1_go (year : Nat) (d : Nat → List TeamEntry) :
    ∀ (ms : List MemberData) (acc : List (Option Nat × Team) × List Candidate),
      ms.foldl (pass1Step year d) acc =
        (buildTeamsAux year acc.1 (ms.filterMap (candOf d)),
         acc.2 ++ ms.filterMap (candOf d)) := by
  intro ms
  induction ms with
  | nil => intro acc; simp [buildTeamsAux]
  | cons m ms ih =>
      intro acc
      rw [List.foldl_cons, pass1Step_eq]
      cases h : candOf d m with
      | none => simp only [List.filterMap_cons, h, ih]
      | some c =>
          simp only [List.filterMap_cons, h, ih, buildTeamsAux, List.foldl_cons,
            List.append_assoc, List.singleton_append]

theorem pass1_fst (year : Nat) (d : Nat → List TeamEntry)
    (ms : List MemberData) :
    (pass1 year d ms).1 = buildTeams year (ms.filterMap (candOf d)) := by
  unfold pass1 buildTeams
  rw [pass1_go]

theorem pass1_snd (year : Nat) (d : Nat → List TeamEntry)
    (ms : List MemberData) :
    (pass1 year d ms).2 = ms.filterMap (candOf d) := by
  unfold pass1
  rw [pass1_go]
  simp

theorem mansfieldCandidates_eq (d : Nat → List TeamEntry)
    (ms : List MemberData) :
    mansfieldCandidates d ms = ms.filterMap (candOf d) := by
  unfold mansfieldCandidates
  exact pass1_snd 0 d ms

/-- The effect of the second pass on one team: append the `TeamMember`
entries of the given candidates. -/
def addMembers (t : Team) (cs : List Candidate) : Team :=
  { t with members := t.members ++ cs.map mkTeamMember }

theorem appendMember_of_find?_eq_none (ts : List (Option Nat × Team))
    (sid : Option Nat) (tm : TeamMember)
    (h : ts.find? (fun kv => kv.1 == sid) = none) :
    appendMember ts sid tm = ts := by
  unfold appendMember
  have hall := List.find?_eq_none.mp h
  rw [List.map_congr_left (g := id) ?_, List.map_id]
  intro kv hkv
  simp only [hall kv hkv, if_neg, Bool.false_eq_true, not_false_iff, id]

theorem pass2_eq (cs : List Candidate) :
    ∀ ts : List (Option Nat × Team),
      pass2 ts cs = ts.map (fun kv =>
        (kv.1, addMembers kv.2
          (cs.filter (fun c => c.team_data.SkipID == kv.1)))) := by
  induction cs with
  | nil =>
      intro ts
      unfold pass2
      simp only [List.foldl_nil, List.filter_nil]
      have : ∀ kv ∈ ts,
          ((kv.1, addMembers kv.2 []) : Option Nat × Team) = id kv := by
        intro kv _
        simp [addMembers]
      rw [List.map_congr_left this, List.map_id]
  | cons c cs ih =>
      intro ts
      unfold pass2 at ih ⊢
      rw [List.foldl_cons]
      show List.foldl pass2Step (pass2Step ts c) cs = _
      rw [ih]
      unfold pass2Step
      by_cases hk : (ts.find? (fun kv => kv.1 == c.team_data.SkipID)).isSome
      · simp only [hk, if_pos]
        unfold appendMember
        rw [List.map_map]
        apply List.map_congr_left
        intro kv _
        by_cases he : kv.1 == c.team_data.SkipID
        · have he' : c.team_data.SkipID == kv.1 := by
            simp only [beq_iff_eq] at he ⊢; exact he.symm
          simp only [Function.comp_apply, he, if_pos, List.filter_cons, he',
            addMembers, List.map_cons, List.append_assoc, List.singleton_append]
        · have he' : (c.team_data.SkipID == kv.1) = false := by
            rw [beq_eq_false_iff_ne]
            intro hx; exact he (beq_iff_eq.mpr hx.symm)
          simp only [Function.comp_apply, he, Bool.false_eq_true, if_neg,
            not_false_iff, List.filter_cons, he', addMembers]
      · simp only [hk, Bool.false_eq_true, if_neg, not_false_iff]
        have hnone : ts.find? (fun kv => kv.1 == c.team_data.SkipID) = none := by
          cases hfind : ts.find? (fun kv => kv.1 == c.team_data.SkipID) with
          | none => rfl
          | some v => exact absurd (by rw [hfind]; rfl) hk
        have hall := List.find?_eq_none.mp hnone
        apply List.map_congr_left
        intro kv hkv
        have hne : (c.team_data.SkipID == kv.1) = false := by
          rw [beq_eq_false_iff_ne]
          intro hx
          exact hall kv hkv (beq_iff_eq.mpr hx.symm)
        simp only [List.filter_cons, hne, Bool.false_eq_true, if_neg,
          not_false_iff]

theorem buildTeamsAux_mem (year : Nat) :
    ∀ (cs : List Candidate) (ts : List (Option Nat × Team))
      (kv : Option Nat × Team), kv ∈ buildTeamsAux year ts cs →
      kv ∈ ts ∨ ∃ c ∈ cs, kv = (c.team_data.SkipID, newTeam year c.team_data) := by
  intro cs
  induction cs with
  | nil => intro ts kv h; exact Or.inl h
  | cons c cs ih =>
      intro ts kv h
      unfold buildTeamsAux at h
      rw [List.foldl_cons] at h
      rcases ih (teamStep year ts c) kv h with h1 | ⟨c2, hc2, he⟩
      · unfold teamStep at h1
        by_cases hk : (ts.find? (fun kv => kv.1 == c.team_data.SkipID)).isSome
        · rw [if_pos hk] at h1; exact Or.inl h1
        · rw [if_neg hk] at h1
          rcases List.mem_append.mp h1 with h2 | h2
          · exact Or.inl h2
          · right
            exact ⟨c, List.mem_cons_self c cs, by simpa using h2⟩
      · right; exact ⟨c2, List.mem_cons_of_mem c hc2, he⟩

theorem buildTeamsAux_find_of_some (year : Nat) (sid : Option Nat)
    (kv : Option Nat × Team) :
    ∀ (cs : List Candidate) (ts : List (Option Nat × Team)),
      ts.find? (fun kv => kv.1 == sid) = some kv →
      (buildTeamsAux year ts cs).find? (fun kv => kv.1 == sid) = some kv := by
  intro cs
  induction cs with
  | nil => intro ts h; exact h
  | cons c cs ih =>
      intro ts h
      unfold buildTeamsAux at ih ⊢
      rw [List.foldl_cons]
      apply ih
      unfold teamStep
      by_cases hk : (ts.find? (fun kv => kv.1 == c.team_data.SkipID)).isSome
      · rw [if_pos hk]; exact h
      · rw [if_neg hk, List.find?_append, h]; rfl

theorem buildTeamsAux_find_of_none (year : Nat) (sid : Option Nat) :
    ∀ (cs : List Candidate) (ts : List (Option Nat × Team)),
      ts.find? (fun kv => kv.1 == sid) = none →
      (buildTeamsAux year ts cs).find? (fun kv => kv.1 == sid) =
        ((cs.find? (fun c => c.team_data.SkipID == sid)).map
          (fun c => (sid, newTeam year c.team_data))) := by
  intro cs
  induction cs with
  | nil => intro ts h; simpa using h
  | cons c cs ih =>
      intro ts h
      unfold buildTeamsAux at ih ⊢
      rw [List.foldl_cons]
      by_cases hcs : (c.team_data.SkipID == sid)
      · have hsid : c.team_data.SkipID = sid := beq_iff_eq.mp hcs
        have hnk : ts.find? (fun kv => kv.1 == c.team_data.SkipID) = none := by
          rw [hsid]; exact h
        have hts : teamStep year ts c =
            ts ++ [(c.team_data.SkipID, newTeam year c.team_data)] := by
          unfold teamStep
          rw [hnk]
          rfl
        have hfind : (teamStep year ts c).find? (fun kv => kv.1 == sid) =
            some (c.team_data.SkipID, newTeam year c.team_data) := by
          rw [hts, List.find?_append, h, Option.none_or,
            List.find?_cons_of_pos
              (p := fun kv : Option Nat × Team => kv.1 == sid) []
              (by simpa using hcs)]
        have hrest := buildTeamsAux_find_of_some year sid _ cs
          (teamStep year ts c) hfind
        unfold buildTeamsAux at hrest
        rw [hrest,
          List.find?_cons_of_pos
            (p := fun c2 : Candidate => c2.team_data.SkipID == sid) cs hcs,
          hsid]
        rfl
      · have hstep : (teamStep year ts c).find? (fun kv => kv.1 == sid) = none := by
          unfold teamStep
          by_cases hk : (ts.find? (fun kv => kv.1 == c.team_data.SkipID)).isSome
          · rw [if_pos hk]; exact h
          · rw [if_neg hk, List.find?_append, h, Option.none_or]
            rw [List.find?_cons_of_neg
              (p := fun kv : Option Nat × Team => kv.1 == sid) []
              (by simpa using hcs)]
            rfl
        rw [ih _ hstep,
          List.find?_cons_of_neg
            (p := fun c2 : Candidate => c2.team_data.SkipID == sid) cs hcs]

theorem buildTeams_find (year : Nat) (sid : Option Nat) (cs : List Candidate) :
    (buildTeams year cs).find? (fun kv => kv.1 == sid) =
      ((cs.find? (fun c => c.team_data.SkipID == sid)).map
        (fun c => (sid, newTeam year c.team_data))) := by
  unfold buildTeams
  exact buildTeamsAux_find_of_none year sid cs [] rfl

theorem buildTeams_hasKey (year : Nat) (cs : List Candidate)
    (c : Candidate) (hc : c ∈ cs) :
    ((buildTeams year cs).find?
      (fun kv => kv.1 == c.team_data.SkipID)).isSome := by
  rw [buildTeams_find]
  have : (cs.find? (fun c2 => c2.team_data.SkipID == c.team_data.SkipID)).isSome := by
    rw [List.find?_isSome]
    exact ⟨c, hc, beq_self_eq_true _⟩
  rcases Option.isSome_iff_exists.mp this with ⟨c2, hc2⟩
  rw [hc2]
  rfl

theorem candOf_some (d : Nat → List TeamEntry) (m : MemberData) (c : Candidate)
    (h : candOf d m = some c) :
    m.Gender = "M" ∧
    ∃ te, (d m.MemberId).find? (fun te => te.League == "Mansfield") = some te ∧
      c = mkCandidate m te := by
  unfold candOf at h
  by_cases hg : m.Gender == "M"
  · rw [if_pos hg] at h
    cases hf : (d m.MemberId).find? (fun te => te.League == "Mansfield") with
    | none => rw [hf] at h; exact absurd h (by simp)
    | some te =>
        rw [hf] at h
        refine ⟨beq_iff_eq.mp hg, te, rfl, ?_⟩
        simpa using h.symm
  · rw [if_neg hg] at h
    exact absurd h (by simp)

theorem gmt_eq (year : Nat) (d : Nat → List TeamEntry) (ms : List MemberData) :
    get_mansfield_teams year d ms =
      ((pass2 (buildTeams year (ms.filterMap (candOf d)))
          (ms.filterMap (candOf d))).map Prod.snd).filter
        (fun t => pyIn "Wednesday" t.day) := by
  show ((pass2 (pass1 year d ms).1 (pass1 year d ms).2).map Prod.snd).filter
      (fun t => pyIn "Wednesday" t.day) = _
  rw [pass1_fst, pass1_snd]

theorem gmt_mem_structure (year : Nat) (d : Nat → List TeamEntry)
    (ms : List MemberData) (t : Team)
    (ht : t ∈ get_mansfield_teams year d ms) :
    pyIn "Wednesday" t.day = true ∧
    ∃ c ∈ ms.filterMap (candOf d),
      t = addMembers (newTeam year c.team_data)
        ((ms.filterMap (candOf d)).filter
          (fun c2 => c2.team_data.SkipID == c.team_data.SkipID)) := by
  rw [gmt_eq] at ht
  rcases List.mem_filter.mp ht with ⟨ht1, ht2⟩
  refine ⟨ht2, ?_⟩
  rw [pass2_eq, List.map_map] at ht1
  rcases List.mem_map.mp ht1 with ⟨kv, hkv, hteq⟩
  rcases buildTeamsAux_mem year _ [] kv hkv with h0 | ⟨c, hc, hkveq⟩
  · exact absurd h0 (by simp)
  · refine ⟨c, hc, ?_⟩
    rw [← hteq, hkveq]
    rfl

theorem addMembers_fields (t : Team) (cs : List Candidate) :
    (addMembers t cs).skip_id = t.skip_id ∧
    (addMembers t cs).skip_name = t.skip_name ∧
    (addMembers t cs).day = t.day ∧
    (addMembers t cs).time = t.time ∧
    (addMembers t cs).league = t.league ∧
    (addMembers t cs).season = t.season ∧
    (addMembers t cs).members = t.members ++ cs.map mkTeamMember := by
  unfold addMembers
  exact ⟨rfl, rfl, rfl, rfl, rfl, rfl, rfl⟩

theorem gmt_complete (year : Nat) (d : Nat → List TeamEntry)
    (ms : List MemberData) (m : MemberData) (hm : m ∈ ms)
    (hg : m.Gender = "M") (te : TeamEntry)
    (hte : (d m.MemberId).find? (fun te0 => te0.League == "Mansfield") = some te)
    (t : Team) (ht : t ∈ get_mansfield_teams year d ms)
    (hsid : t.skip_id = te.SkipID) :
    ∃ tm ∈ t.members, tm.member_id = m.MemberId := by
  have hcand : mkCandidate m te ∈ ms.filterMap (candOf d) := by
    rw [List.mem_filterMap]
    refine ⟨m, hm, ?_⟩
    unfold candOf
    rw [if_pos (beq_iff_eq.mpr hg), hte]
    rfl
  rcases gmt_mem_structure year d ms t ht with ⟨-, c, hc, hteq⟩
  have hskip : t.skip_id = c.team_data.SkipID := by
    rw [hteq]; rfl
  have hsid2 : (mkCandidate m te).team_data.SkipID = c.team_data.SkipID := by
    show te.SkipID = c.team_data.SkipID
    rw [← hsid, hskip]
  have hmemf : mkCandidate m te ∈
      (ms.filterMap (candOf d)).filter
        (fun c2 => c2.team_data.SkipID == c.team_data.SkipID) := by
    rw [List.mem_filter]
    exact ⟨hcand, beq_iff_eq.mpr hsid2⟩
  refine ⟨mkTeamMember (mkCandidate m te), ?_, rfl⟩
  rw [hteq]
  show _ ∈ (newTeam year c.team_data).members ++ _
  rw [List.mem_append]
  right
  exact List.mem_map_of_mem mkTeamMember hmemf

theorem filterMap_candOf_gender (d : Nat → List TeamEntry)
    (ms : List MemberData) :
    (ms.filter (fun m => m.Gender == "M")).filterMap (candOf d) =
      ms.filterMap (candOf d) := by
  induction ms with
  | nil => rfl
  | cons m ms ih =>
      rw [List.filter_cons]
      by_cases hg : m.Gender == "M"
      · simp only [hg, if_pos, List.filterMap_cons, ih]
      · have hnone : candOf d m = none := by
          unfold candOf; rw [if_neg hg]
        simp only [hg, Bool.false_eq_true, if_neg, not_false_iff,
          List.filterMap_cons, hnone, ih]

theorem find?_filter_self {α : Type} (p : α → Bool) (l : List α) :
    (l.filter p).find? p = l.find? p := by
  induction l with
  | nil => rfl
  | cons a l ih =>
      rw [List.filter_cons]
      by_cases h : p a
      · rw [if_pos h, List.find?_cons_of_pos _ h, List.find?_cons_of_pos _ h]
      · rw [if_neg h, List.find?_cons_of_neg _ h, ih]

theorem candOf_league_filter (d : Nat → List TeamEntry) (m : MemberData) :
    candOf (fun i => (d i).filter (fun te => te.League == "Mansfield")) m =
      candOf d m := by
  unfold candOf
  rw [find?_filter_self]

/-- Total number of member entries with the given member id across all teams
of a team dictionary. -/
def totalCount (i : Nat) (ts : List (Option Nat × Team)) : Nat :=
  (ts.map (fun kv => kv.2.members.countP (fun tm => tm.member_id == i))).sum

theorem appendMember_keys (ts : List (Option Nat × Team)) (sid : Option Nat)
    (tm : TeamMember) :
    (appendMember ts sid tm).map Prod.fst = ts.map Prod.fst := by
  unfold appendMember
  rw [List.map_map]
  apply List.map_congr_left
  intro kv _
  by_cases h : kv.1 = sid
  · subst h; simp
  · simp [h]

theorem totalCount_appendMember (ts : List (Option Nat × Team))
    (sid : Option Nat) (tm : TeamMember) (i : Nat) :
    totalCount i (appendMember ts sid tm) =
      totalCount i ts +
        (ts.countP (fun kv => kv.1 == sid)) *
          (if tm.member_id == i then 1 else 0) := by
  induction ts with
  | nil => simp [totalCount, appendMember]
  | cons kv ts ih =>
      unfold totalCount appendMember at ih ⊢
      rw [List.map_cons, List.map_cons, List.map_cons, List.sum_cons,
        List.sum_cons, ih, List.countP_cons]
      by_cases hi : (tm.member_id == i) = true
      · by_cases h : kv.1 = sid
        · have hb : (kv.1 == sid) = true := beq_iff_eq.mpr h
          simp only [hb, if_true, hi, List.countP_append, List.countP_cons,
            List.countP_nil]
          omega
        · have hb : (kv.1 == sid) = false := beq_eq_false_iff_ne.mpr h
          simp only [hb, Bool.false_eq_true, if_neg, not_false_iff, hi,
            if_true]
          omega
      · have hi0 : (if (tm.member_id == i) = true then 1 else 0) = 0 :=
          if_neg hi
        rw [hi0, Nat.mul_zero, Nat.mul_zero, Nat.add_zero, Nat.add_zero]
        by_cases h : kv.1 = sid
        · have hb : (kv.1 == sid) = true := beq_iff_eq.mpr h
          simp only [hb, if_true, List.countP_append, List.countP_cons,
            List.countP_nil]
          rw [if_neg hi]
          omega
        · have hb : (kv.1 == sid) = false := beq_eq_false_iff_ne.mpr h
          simp only [hb, Bool.false_eq_true, if_neg, not_false_iff]

theorem countP_beq_le_one {α : Type} [BEq α] [LawfulBEq α] (a : α) :
    ∀ l : List α, l.Nodup → l.countP (fun x => x == a) ≤ 1 := by
  intro l
  induction l with
  | nil => intro _; simp [List.countP_nil]
  | cons b l ih =>
      intro h
      rcases List.nodup_cons.mp h with ⟨hb, hl⟩
      rw [List.countP_cons]
      by_cases hba : b = a
      · subst hba
        have hz : l.countP (fun x => x == b) = 0 := by
          rw [List.countP_eq_zero]
          intro x hx
          intro hxb
          exact hb (beq_iff_eq.mp hxb ▸ hx)
        rw [hz]
        simp
      · have : (b == a) = false := beq_eq_false_iff_ne.mpr hba
        rw [this]
        have := ih hl
        simp only [Bool.false_eq_true, if_neg, not_false_iff]
        omega

theorem countP_keys_le_one (ts : List (Option Nat × Team)) (sid : Option Nat)
    (hnd : (ts.map Prod.fst).Nodup) :
    ts.countP (fun kv => kv.1 == sid) ≤ 1 := by
  have h1 : ts.countP (fun kv => kv.1 == sid) =
      (ts.map Prod.fst).countP (fun k => k == sid) := by
    rw [List.countP_map]
    rfl
  rw [h1]
  exact countP_beq_le_one sid _ hnd

theorem totalCount_pass2_le (i : Nat) :
    ∀ (cs : List Candidate) (ts : List (Option Nat × Team)),
      (ts.map Prod.fst).Nodup →
      totalCount i (pass2 ts cs) ≤
        totalCount i ts + cs.countP (fun c => c.member_id == i) := by
  intro cs
  induction cs with
  | nil => intro ts _; simp [pass2, List.countP_nil]
  | cons c cs ih =>
      intro ts hnd
      unfold pass2 at ih ⊢
      rw [List.foldl_cons]
      have hstep : totalCount i (pass2Step ts c) ≤
          totalCount i ts + (if (c.member_id == i) = true then 1 else 0) := by
        unfold pass2Step
        by_cases hk : (ts.find? (fun kv => kv.1 == c.team_data.SkipID)).isSome
        · rw [if_pos hk, totalCount_appendMember]
          have hle := countP_keys_le_one ts c.team_data.SkipID hnd
          have hmm : (mkTeamMember c).member_id = c.member_id := rfl
          rw [hmm]
          by_cases hi : (c.member_id == i) = true <;>
            simp only [hi, if_true, Bool.false_eq_true, if_neg, not_false_iff,
              Nat.mul_one, Nat.mul_zero] <;>
            omega
        · rw [if_neg hk]
          omega
      have hknd : ((pass2Step ts c).map Prod.fst).Nodup := by
        unfold pass2Step
        by_cases hk : (ts.find? (fun kv => kv.1 == c.team_data.SkipID)).isSome
        · rw [if_pos hk, appendMember_keys]; exact hnd
        · rw [if_neg hk]; exact hnd
      have hrest := ih (pass2Step ts c) hknd
      rw [List.countP_cons]
      omega

theorem buildTeamsAux_keys_nodup (year : Nat) :
    ∀ (cs : List Candidate) (ts : List (Option Nat × Team)),
      (ts.map Prod.fst).Nodup →
      ((buildTeamsAux year ts cs).map Prod.fst).Nodup := by
  intro cs
  induction cs with
  | nil => intro ts h; exact h
  | cons c cs ih =>
      intro ts h
      unfold buildTeamsAux at ih ⊢
      rw [List.foldl_cons]
      apply ih
      unfold teamStep
      by_cases hk : (ts.find? (fun kv => kv.1 == c.team_data.SkipID)).isSome
      · rw [if_pos hk]; exact h
      · rw [if_neg hk, List.map_append]
        rw [List.nodup_append]
        refine ⟨h, List.nodup_singleton _, ?_⟩
        intro k hk1 hk2
        have hnone : ts.find? (fun kv => kv.1 == c.team_data.SkipID) = none := by
          cases hfind : ts.find? (fun kv => kv.1 == c.team_data.SkipID) with
          | none => rfl
          | some v => exact absurd (by rw [hfind]; rfl) hk
        have hall := List.find?_eq_none.mp hnone
        rcases List.mem_map.mp hk1 with ⟨kv, hkv, hkeq⟩
        have hks : k = c.team_data.SkipID := by simpa using hk2
        exact hall kv hkv (beq_iff_eq.mpr (by rw [hkeq, hks]))

theorem totalCount_buildTeams (year : Nat) (cs : List Candidate) (i : Nat) :
    totalCount i (buildTeams year cs) = 0 := by
  unfold totalCount
  apply List.sum_eq_zero
  intro x hx
  rcases List.mem_map.mp hx with ⟨kv, hkv, hxeq⟩
  rcases buildTeamsAux_mem year cs [] kv hkv with h0 | ⟨c, -, hkveq⟩
  · exact absurd h0 (by simp)
  · rw [← hxeq, hkveq]
    rfl

theorem countP_filterMap_candOf (d : Nat → List TeamEntry) (i : Nat) :
    ∀ ms : List MemberData,
      (ms.filterMap (candOf d)).countP (fun c => c.member_id == i) ≤
        ms.countP (fun m => m.MemberId == i) := by
  intro ms
  induction ms with
  | nil => simp [List.countP_nil]
  | cons m ms ih =>
      rw [List.countP_cons]
      cases hc : candOf d m with
      | none =>
          rw [List.filterMap_cons_none hc]
          omega
      | some c =>
          rw [List.filterMap_cons_some hc, List.countP_cons]
          rcases candOf_some d m c hc with ⟨-, te, -, hceq⟩
          have hid : c.member_id = m.MemberId := by rw [hceq]; rfl
          rw [hid]
          omega

theorem countP_memberId_le_one (ms : List MemberData) (i : Nat)
    (hnd : (ms.map (fun m => m.MemberId)).Nodup) :
    ms.countP (fun m => m.MemberId == i) ≤ 1 := by
  have h1 : ms.countP (fun m => m.MemberId == i) =
      (ms.map (fun m => m.MemberId)).countP (fun k => k == i) := by
    rw [List.countP_map]
    rfl
  rw [h1]
  exact countP_beq_le_one i _ hnd

theorem decodeKeys_encodeKeys (d : List (Nat × List TeamEntry)) :
    decodeKeys (encodeKeys d) = d := by
  unfold decodeKeys encodeKeys
  rw [List.map_map]
  have h : ∀ kv ∈ d,
      ((fun kv : List Nat × List TeamEntry => (Nat.ofDigits 10 kv.1, kv.2)) ∘
        (fun kv : Nat × List TeamEntry => (Nat.digits 10 kv.1, kv.2))) kv =
        id kv := by
    intro kv _
    simp [Nat.ofDigits_digits]
  rw [List.map_congr_left h, List.map_id]

theorem sgmtd_none_load (w : World) (i : Nat) :
    season_get_member_team_data w none i =
      season_get_member_team_data w (some (loadTeamDatas w)) i := by
  unfold season_get_member_team_data
  rfl

theorem sgmtd_hit (w : World) (d0 : List (Nat × List TeamEntry)) (i : Nat)
    (kv : Nat × List TeamEntry)
    (hkv : d0.find? (fun kv => kv.1 == i) = some kv) :
    season_get_member_team_data w (some d0) i =
      { val := kv.2, world := w, cache := d0, calls := 0 } := by
  unfold season_get_member_team_data
  simp only [hkv]

theorem sgmtd_miss (w : World) (d0 : List (Nat × List TeamEntry)) (i : Nat)
    (hmiss : d0.find? (fun kv => kv.1 == i) = none) :
    season_get_member_team_data w (some d0) i =
      { val := w.netTeams i
        world := { w with
          teamDataFile := some (encodeKeys (d0 ++ [(i, w.netTeams i)])) }
        cache := d0 ++ [(i, w.netTeams i)]
        calls := 1 } := by
  unfold season_get_member_team_data
  simp only [hmiss]

theorem aggStep_cached (w : World) (doc : List (List Nat × List TeamEntry))
    (hdoc : w.teamDataFile = some doc) (mem : MemberData) (n : Nat)
    (cache : Option (List (Nat × List TeamEntry)))
    (hcache : cache = none ∨ cache = some (decodeKeys doc))
    (hmem : mem.Gender = "M" →
      ((decodeKeys doc).find? (fun kv => kv.1 == mem.MemberId)).isSome) :
    aggStep { world := w, cache := cache, calls := n } mem =
      { world := w,
        cache := if mem.Gender == "M" then some (decodeKeys doc) else cache,
        calls := n } := by
  unfold aggStep
  by_cases hg : mem.Gender == "M"
  · rw [if_pos hg, if_pos hg]
    have hfind := hmem (beq_iff_eq.mp hg)
    rcases Option.isSome_iff_exists.mp hfind with ⟨kv, hkv⟩
    have hld : loadTeamDatas w = decodeKeys doc := by
      unfold loadTeamDatas
      rw [hdoc]
    rcases hcache with h | h <;> subst h
    · show (let r := season_get_member_team_data w none mem.MemberId;
        ({ world := r.world, cache := some r.cache, calls := n + r.calls }
          : RunState)) = _
      rw [sgmtd_none_load, hld, sgmtd_hit w (decodeKeys doc) mem.MemberId kv hkv]
      rfl
    · show (let r := (season_get_member_team_data w (some (decodeKeys doc))
          mem.MemberId);
        ({ world := r.world, cache := some r.cache, calls := n + r.calls }
          : RunState)) = _
      rw [sgmtd_hit w (decodeKeys doc) mem.MemberId kv hkv]
      rfl
  · rw [if_neg hg, if_neg hg]

theorem agg_fold_cached (w : World) (doc : List (List Nat × List TeamEntry))
    (hdoc : w.teamDataFile = some doc) :
    ∀ (l : List MemberData),
      (∀ mem ∈ l, mem.Gender = "M" →
        ((decodeKeys doc).find? (fun kv => kv.1 == mem.MemberId)).isSome) →
      ∀ (cache : Option (List (Nat × List TeamEntry))) (n : Nat),
        (cache = none ∨ cache = some (decodeKeys doc)) →
        (l.foldl aggStep { world := w, cache := cache, calls := n }).calls = n := by
  intro l
  induction l with
  | nil => intro _ cache n _; rfl
  | cons mem l ih =>
      intro hall cache n hcache
      rw [List.foldl_cons,
        aggStep_cached w doc hdoc mem n cache hcache
          (hall mem (List.mem_cons_self mem l))]
      by_cases hg : mem.Gender == "M"
      · rw [if_pos hg]
        exact ih (fun m hm => hall m (List.mem_cons_of_mem mem hm))
          (some (decodeKeys doc)) n (Or.inr rfl)
      · rw [if_neg hg]
        exact ih (fun m hm => hall m (List.mem_cons_of_mem mem hm)) cache n hcache

theorem positionOf_eq_roleIds (member_id : Nat) (td : TeamEntry) :
    positionOf member_id td =
      ((roleIds td).find? (fun p => p.2 == some member_id)).map Prod.fst := by
  unfold positionOf roleIds
  by_cases h1 : td.LeadID = some member_id
  · rw [List.find?_cons_of_pos (p := fun p : String × Option Nat => p.2 == some member_id) _ (beq_iff_eq.mpr h1),
      if_pos (beq_iff_eq.mpr h1.symm)]
    rfl
  · rw [List.find?_cons_of_neg (p := fun p : String × Option Nat => p.2 == some member_id) _ (fun hb => h1 (beq_iff_eq.mp hb)),
      if_neg (fun hb => h1 (beq_iff_eq.mp hb).symm)]
    by_cases h2 : td.SecondID = some member_id
    · rw [List.find?_cons_of_pos (p := fun p : String × Option Nat => p.2 == some member_id) _ (beq_iff_eq.mpr h2),
        if_pos (beq_iff_eq.mpr h2.symm)]
      rfl
    · rw [List.find?_cons_of_neg (p := fun p : String × Option Nat => p.2 == some member_id) _ (fun hb => h2 (beq_iff_eq.mp hb)),
        if_neg (fun hb => h2 (beq_iff_eq.mp hb).symm)]
      by_cases h3 : td.ViceID = some member_id
      · rw [List.find?_cons_of_pos (p := fun p : String × Option Nat => p.2 == some member_id) _ (beq_iff_eq.mpr h3),
          if_pos (beq_iff_eq.mpr h3.symm)]
        rfl
      · rw [List.find?_cons_of_neg (p := fun p : String × Option Nat => p.2 == some member_id) _ (fun hb => h3 (beq_iff_eq.mp hb)),
          if_neg (fun hb => h3 (beq_iff_eq.mp hb).symm)]
        by_cases h4 : td.SkipID = some member_id
        · rw [List.find?_cons_of_pos (p := fun p : String × Option Nat => p.2 == some member_id) _ (beq_iff_eq.mpr h4),
            if_pos (beq_iff_eq.mpr h4.symm)]
          rfl
        · rw [List.find?_cons_of_neg (p := fun p : String × Option Nat => p.2 == some member_id) _ (fun hb => h4 (beq_iff_eq.mp hb)),
            if_neg (fun hb => h4 (beq_iff_eq.mp hb).symm)]
          by_cases h5 : td.FifthID = some member_id
          · rw [List.find?_cons_of_pos (p := fun p : String × Option Nat => p.2 == some member_id) _ (beq_iff_eq.mpr h5),
              if_pos (beq_iff_eq.mpr h5.symm)]
            rfl
          · rw [List.find?_cons_of_neg (p := fun p : String × Option Nat => p.2 == some member_id) _ (fun hb => h5 (beq_iff_eq.mp hb)),
              if_neg (fun hb => h5 (beq_iff_eq.mp hb).symm)]
            rfl

theorem cardLe_trans (a b c : TeamCard) (hab : cardLe a b = true)
    (hbc : cardLe b c = true) : cardLe a c = true := by
  unfold cardLe at hab hbc ⊢
  rw [decide_eq_true_eq] at hab hbc ⊢
  exact le_trans hab hbc

theorem cardLe_total (a b : TeamCard) : (cardLe a b || cardLe b a) = true := by
  unfold cardLe
  rcases le_total a.team_name b.team_name with h | h
  · simp [h]
  · simp [h]

theorem memberLe_trans (a b c : TeamMember) (hab : memberLe a b = true)
    (hbc : memberLe b c = true) : memberLe a c = true := by
  unfold memberLe at hab hbc ⊢
  rw [decide_eq_true_eq] at hab hbc ⊢
  exact le_trans hab hbc

theorem memberLe_total (a b : TeamMember) :
    (memberLe a b || memberLe b a) = true := by
  unfold memberLe
  rcases le_total (position_order a.position) (position_order b.position)
    with h | h
  · simp [h]
  · simp [h]

theorem mkCardMember_position (e : Bool) (ap : Nat → Option String)
    (b64 : String → Option String) (rp : String → String) (m : TeamMember) :
    (mkCardMember e ap b64 rp m).position = m.position := by
  cases hap : ap m.member_id with
  | none => simp only [mkCardMember, hap]
  | some path => cases e <;> simp [mkCardMember, hap]

/-- C1: the claim says a non-empty `filter_times` list makes the exporter keep
exactly the teams whose `time` is a member of the list and an empty list keeps
all teams. On the code this is impossible: `generate_team_cards_json` forwards
the keyword argument `filter_times` to `get_mansfield_teams`, whose signature
(`def get_mansfield_teams(year=None)`) has no such parameter, so every
invocation raises `TypeError`, which the `except` block turns into a logged
failure and a non-zero exit; no time filtering is ever performed. This theorem
evaluates the exporter on arbitrary inputs, any filter list included, and
shows it always yields the `TypeError` failure. -/
theorem C1_export_typeerror (year : Nat) (embed_avatars : Bool)
    (filter_times : List String) (teamDataOf : Nat → List TeamEntry)
    (members : List MemberData) (avatarPaths : Nat → Option String)
    (b64 : String → Option String) (relpathOf : String → String) :
    generate_team_cards_json year embed_avatars filter_times teamDataOf members
      avatarPaths b64 relpathOf =
      Except.error
        "TypeError: get_mansfield_teams() got an unexpected keyword argument" :=
  rfl

/-- C5: the computed position is the first role, in the fixed priority order
Lead, Second, Vice, Skip, Fifth of `roleIds`, whose id equals the member id;
in particular a member listed as `LeadID` is assigned "Lead" whatever the
record's other role fields hold. -/
theorem C5_position_priority (member_id : Nat) (td : TeamEntry) :
    positionOf member_id td =
      ((roleIds td).find? (fun p => p.2 == some member_id)).map Prod.fst ∧
    positionOf member_id { td with LeadID := some member_id } = some "Lead" := by
  refine ⟨positionOf_eq_roleIds member_id td, ?_⟩
  simp [positionOf]

/-- C8: with no cache file present, a response with a non-200 status or a
body smaller than 1000 bytes makes `get_avatar_image` return `None` and no
avatar cache file is created. -/
theorem C8_small_or_failed_avatar (member_id : Nat) (resp : AvatarResponse)
    (hid : member_id ≠ 0)
    (h : resp.status ≠ 200 ∨ resp.contentLen < 1000) :
    get_avatar_image false (some resp) member_id = (none, false) := by
  have h0 : (member_id == 0) = false := beq_eq_false_iff_ne.mpr hid
  have hcond : (resp.status == 200 && decide (1000 < resp.contentLen)) = false := by
    rcases h with h | h
    · have hs : (resp.status == 200) = false := beq_eq_false_iff_ne.mpr h
      rw [hs, Bool.false_and]
    · have hl : decide (1000 < resp.contentLen) = false := by
        rw [decide_eq_false_iff_not]
        omega
      rw [hl, Bool.and_false]
  simp [get_avatar_image, h0, hcond]

/-- Witness for C8 at the spec's example: a 200-status response of 600 bytes
for member 7 yields no avatar and writes no cache file. -/
theorem C8_witness :
    get_avatar_image false (some ⟨200, 600⟩) 7 = (none, false) :=
  C8_small_or_failed_avatar 7 ⟨200, 600⟩ (by decide) (Or.inr (by decide))

/-- C10: with no cache file present, a 200-status response of exactly 1000
bytes yields `None` and writes no cache file — the guard is the strict
`len(response.content) > 1000` — while 1001 bytes is cached and returned. -/
theorem C10_threshold_exclusive (member_id : Nat) (hid : member_id ≠ 0) :
    get_avatar_image false (some ⟨200, 1000⟩) member_id = (none, false) ∧
    get_avatar_image false (some ⟨200, 1001⟩) member_id =
      (some (avatar_cache_path member_id), true) := by
  have h0 : (member_id == 0) = false := beq_eq_false_iff_ne.mpr hid
  constructor <;> simp [get_avatar_image, h0]

/-- Witness for C10 at member 7. -/
theorem C10_witness :
    get_avatar_image false (some ⟨200, 1000⟩) 7 = (none, false) ∧
    get_avatar_image false (some ⟨200, 1001⟩) 7 =
      (some (avatar_cache_path 7), true) :=
  C10_threshold_exclusive 7 (by decide)

/-- C2 counterexample: nothing caps a team's member list at 5. With six male
members whose only team record is the same Mansfield Wednesday record (skip id
1), aggregation returns one team whose members list has six entries, so the
claimed invariant `length ≤ 5` is false on the code. -/
theorem C2_counterexample :
    ¬ (∀ t ∈ get_mansfield_teams 2024
        (fun _ => [⟨"Mansfield", "Alpha", some 1, some 2, some 3, some 4,
          some 6, "Wednesday", "6:35/8:45PM"⟩])
        [⟨1, "A", "a", "M"⟩, ⟨2, "B", "b", "M"⟩, ⟨3, "C", "c", "M"⟩,
         ⟨4, "D", "d", "M"⟩, ⟨5, "E", "e", "M"⟩, ⟨6, "F", "f", "M"⟩],
        t.members.length ≤ 5) := by
  decide

/-- C2 amended: a team's members list is in general as long as the number of
candidates (male members with a Mansfield record) whose record carries the
team's skip id; it is bounded by 5 exactly when no skip id is shared by more
than five candidates, which upstream data is not validated to ensure. -/
theorem C2_members_bound (year : Nat) (d : Nat → List TeamEntry)
    (ms : List MemberData)
    (h : ∀ c ∈ mansfieldCandidates d ms,
      (mansfieldCandidates d ms).countP
        (fun c2 => c2.team_data.SkipID == c.team_data.SkipID) ≤ 5) :
    ∀ t ∈ get_mansfield_teams year d ms, t.members.length ≤ 5 := by
  intro t ht
  rcases gmt_mem_structure year d ms t ht with ⟨-, c, hc, hteq⟩
  rw [mansfieldCandidates_eq] at h
  have hlen : t.members.length =
      ((ms.filterMap (candOf d)).filter
        (fun c2 => c2.team_data.SkipID == c.team_data.SkipID)).length := by
    rw [hteq]
    show ((newTeam year c.team_data).members ++
      ((ms.filterMap (candOf d)).filter
        (fun c2 => c2.team_data.SkipID == c.team_data.SkipID)).map
          mkTeamMember).length = _
    rw [List.length_append, List.length_map]
    have hz : (newTeam year c.team_data).members.length = 0 := rfl
    omega
  rw [hlen, ← List.countP_eq_length_filter]
  exact h c hc

/-- Witness for C2's amended bound: one member, one Mansfield record,
hypothesis checked by evaluation. -/
theorem C2_witness :
    (∀ c ∈ mansfieldCandidates
        (fun _ => [⟨"Mansfield", "Alpha", some 1, some 2, some 3, some 4,
          some 6, "Wednesday", "6:35/8:45PM"⟩]) [⟨1, "A", "a", "M"⟩],
      (mansfieldCandidates
        (fun _ => [⟨"Mansfield", "Alpha", some 1, some 2, some 3, some 4,
          some 6, "Wednesday", "6:35/8:45PM"⟩]) [⟨1, "A", "a", "M"⟩]).countP
        (fun c2 => c2.team_data.SkipID == c.team_data.SkipID) ≤ 5) ∧
    (∀ t ∈ get_mansfield_teams 2024
        (fun _ => [⟨"Mansfield", "Alpha", some 1, some 2, some 3, some 4,
          some 6, "Wednesday", "6:35/8:45PM"⟩]) [⟨1, "A", "a", "M"⟩],
      t.members.length ≤ 5) :=
  ⟨by decide, C2_members_bound 2024 _ _ (by decide)⟩

/-- C3: every returned team has league "Mansfield", a day containing
"Wednesday" as a substring, and descriptive fields taken from some male
member's Mansfield team record; female members and non-Mansfield records are
irrelevant to the result (removing either changes nothing); every male
member whose first Mansfield record carries the skip id of a returned team
appears among that team's member entries; and, for the inclusion half of
"exactly", every team the first pass derives from a qualifying record — an
entry of `mansfieldTeamsInit`, which by `C4_first_record_wins` is `newTeam`
of the first candidate record per skip id — whose day contains "Wednesday"
appears in the result with the same descriptive fields. (The record-level
unconditional inclusion would be false of the code: a later Mansfield record
with a Wednesday day is excluded when an earlier record with the same skip id
and a non-Wednesday day defined the team, so inclusion is stated of the
teams the first pass builds.) -/
theorem C3_wednesday_mansfield (year : Nat) (d : Nat → List TeamEntry)
    (ms : List MemberData) :
    (∀ t ∈ get_mansfield_teams year d ms,
      t.league = "Mansfield" ∧ pyIn "Wednesday" t.day = true ∧
      ∃ m ∈ ms, m.Gender = "M" ∧ ∃ te ∈ d m.MemberId,
        te.League = "Mansfield" ∧ t.skip_id = te.SkipID ∧ t.day = te.Day ∧
        t.time = te.Time ∧ t.skip_name = te.Skip) ∧
    get_mansfield_teams year d ms =
      get_mansfield_teams year d (ms.filter (fun m => m.Gender == "M")) ∧
    get_mansfield_teams year d ms =
      get_mansfield_teams year
        (fun i => (d i).filter (fun te => te.League == "Mansfield")) ms ∧
    (∀ m ∈ ms, m.Gender = "M" →
      ∀ te, (d m.MemberId).find? (fun te0 => te0.League == "Mansfield") =
        some te →
      ∀ t ∈ get_mansfield_teams year d ms, t.skip_id = te.SkipID →
      ∃ tm ∈ t.members, tm.member_id = m.MemberId) ∧
    (∀ kv ∈ mansfieldTeamsInit year d ms, pyIn "Wednesday" kv.2.day = true →
      ∃ t ∈ get_mansfield_teams year d ms,
        t.skip_id = kv.2.skip_id ∧ t.skip_name = kv.2.skip_name ∧
        t.day = kv.2.day ∧ t.time = kv.2.time ∧ t.league = kv.2.league ∧
        t.season = kv.2.season) := by
  refine ⟨?_, ?_, ?_, ?_, ?_⟩
  · intro t ht
    rcases gmt_mem_structure year d ms t ht with ⟨hwed, c, hc, hteq⟩
    rcases List.mem_filterMap.mp hc with ⟨m, hm, hcand⟩
    rcases candOf_some d m c hcand with ⟨hg, te, hfind, hceq⟩
    have hctd : c.team_data = te := by rw [hceq]; rfl
    have hteMem : te ∈ d m.MemberId := List.mem_of_find?_eq_some hfind
    have hteL : te.League = "Mansfield" :=
      beq_iff_eq.mp
        (List.find?_some (p := fun te2 : TeamEntry => te2.League == "Mansfield")
          hfind)
    have hleague : t.league = te.League := by rw [hteq, hctd]; rfl
    have hskip : t.skip_id = te.SkipID := by rw [hteq, hctd]; rfl
    have hday : t.day = te.Day := by rw [hteq, hctd]; rfl
    have htime : t.time = te.Time := by rw [hteq, hctd]; rfl
    have hname : t.skip_name = te.Skip := by rw [hteq, hctd]; rfl
    exact ⟨by rw [hleague, hteL], hwed,
      m, hm, hg, te, hteMem, hteL, hskip, hday, htime, hname⟩
  · rw [gmt_eq, gmt_eq, filterMap_candOf_gender]
  · have hfun :
        candOf (fun i => (d i).filter (fun te => te.League == "Mansfield")) =
          candOf d :=
      funext (candOf_league_filter d)
    rw [gmt_eq, gmt_eq, hfun]
  · intro m hm hg te hte t ht hskip
    exact gmt_complete year d ms m hm hg te hte t ht hskip
  · intro kv hkv hwed
    have hkv2 : kv ∈ buildTeams year (ms.filterMap (candOf d)) := by
      unfold mansfieldTeamsInit at hkv
      rwa [pass1_fst] at hkv
    refine ⟨addMembers kv.2 ((ms.filterMap (candOf d)).filter
      (fun c2 => c2.team_data.SkipID == kv.1)), ?_, rfl, rfl, rfl, rfl, rfl,
      rfl⟩
    rw [gmt_eq]
    apply List.mem_filter.mpr
    constructor
    · rw [pass2_eq, List.map_map]
      exact List.mem_map_of_mem _ hkv2
    · show pyIn "Wednesday" kv.2.day = true
      exact hwed

/-- Witness for C3: on a concrete season the result is unchanged by removing
female member entries, and the team the first pass derives from the season's
Mansfield Wednesday record is included in the result with its fields. -/
theorem C3_witness :
    (get_mansfield_teams 2024
      (fun _ => [⟨"Mansfield", "Alpha", some 1, some 2, some 3, some 4,
        some 6, "Wednesday", "6:35/8:45PM"⟩])
      [⟨1, "A", "a", "M"⟩, ⟨2, "B", "b", "F"⟩] =
    get_mansfield_teams 2024
      (fun _ => [⟨"Mansfield", "Alpha", some 1, some 2, some 3, some 4,
        some 6, "Wednesday", "6:35/8:45PM"⟩])
      (([⟨1, "A", "a", "M"⟩, ⟨2, "B", "b", "F"⟩] : List MemberData).filter
        (fun m => m.Gender == "M"))) ∧
    (∃ t ∈ get_mansfield_teams 2024
      (fun _ => [⟨"Mansfield", "Alpha", some 1, some 2, some 3, some 4,
        some 6, "Wednesday", "6:35/8:45PM"⟩])
      [⟨1, "A", "a", "M"⟩, ⟨2, "B", "b", "F"⟩],
      t.skip_id = some 1 ∧ t.skip_name = "Alpha" ∧ t.day = "Wednesday" ∧
        t.time = "6:35/8:45PM" ∧ t.league = "Mansfield" ∧ t.season = 2024) :=
  ⟨(C3_wednesday_mansfield 2024
      (fun _ => [⟨"Mansfield", "Alpha", some 1, some 2, some 3, some 4,
        some 6, "Wednesday", "6:35/8:45PM"⟩])
      [⟨1, "A", "a", "M"⟩, ⟨2, "B", "b", "F"⟩]).2.1,
   (C3_wednesday_mansfield 2024
      (fun _ => [⟨"Mansfield", "Alpha", some 1, some 2, some 3, some 4,
        some 6, "Wednesday", "6:35/8:45PM"⟩])
      [⟨1, "A", "a", "M"⟩, ⟨2, "B", "b", "F"⟩]).2.2.2.2
      (some 1, newTeam 2024 ⟨"Mansfield", "Alpha", some 1, some 2, some 3,
        some 4, some 6, "Wednesday", "6:35/8:45PM"⟩)
      (by decide) (by decide)⟩

/-- C4: (a) every candidate's stored `team_data` is the FIRST record of the
member's list whose league is "Mansfield" (later Mansfield records are
ignored); (b) the team dictionary entry for any skip id is built from the
first candidate carrying that skip id and is never overwritten by later
candidates sharing it; (c) with distinct member ids, a member contributes at
most one `TeamMember` entry across all returned teams. -/
theorem C4_first_record_wins (year : Nat) (d : Nat → List TeamEntry)
    (ms : List MemberData)
    (hnd : (ms.map (fun m => m.MemberId)).Nodup) :
    (∀ c ∈ mansfieldCandidates d ms,
      (d c.member_id).find? (fun te => te.League == "Mansfield") =
        some c.team_data) ∧
    (∀ sid, (mansfieldTeamsInit year d ms).find? (fun kv => kv.1 == sid) =
      ((mansfieldCandidates d ms).find?
        (fun c => c.team_data.SkipID == sid)).map
        (fun c => (sid, newTeam year c.team_data))) ∧
    (∀ i, ((get_mansfield_teams year d ms).map
      (fun t => t.members.countP (fun tm => tm.member_id == i))).sum ≤ 1) := by
  refine ⟨?_, ?_, ?_⟩
  · intro c hc
    rw [mansfieldCandidates_eq] at hc
    rcases List.mem_filterMap.mp hc with ⟨m, hm, hcand⟩
    rcases candOf_some d m c hcand with ⟨-, te, hfind, hceq⟩
    have h1 : c.member_id = m.MemberId := by rw [hceq]; rfl
    have h2 : c.team_data = te := by rw [hceq]; rfl
    rw [h1, h2]
    exact hfind
  · intro sid
    unfold mansfieldTeamsInit
    rw [pass1_fst, mansfieldCandidates_eq]
    exact buildTeams_find year sid _
  · intro i
    rw [gmt_eq]
    have hsub := List.Sublist.map
      (fun t : Team => t.members.countP (fun tm => tm.member_id == i))
      (List.filter_sublist (p := fun t : Team => pyIn "Wednesday" t.day)
        ((pass2 (buildTeams year (ms.filterMap (candOf d)))
          (ms.filterMap (candOf d))).map Prod.snd))
    have h1 := List.Sublist.sum_le_sum hsub (fun a _ => Nat.zero_le a)
    have h2 : (((pass2 (buildTeams year (ms.filterMap (candOf d)))
        (ms.filterMap (candOf d))).map Prod.snd).map
        (fun t : Team => t.members.countP (fun tm => tm.member_id == i))).sum =
        totalCount i (pass2 (buildTeams year (ms.filterMap (candOf d)))
          (ms.filterMap (candOf d))) := by
      unfold totalCount
      rw [List.map_map]
      rfl
    have h3 := totalCount_pass2_le i (ms.filterMap (candOf d))
      (buildTeams year (ms.filterMap (candOf d)))
      (buildTeamsAux_keys_nodup year (ms.filterMap (candOf d)) [] (by simp))
    rw [totalCount_buildTeams] at h3
    have h4 := countP_filterMap_candOf d i ms
    have h5 := countP_memberId_le_one ms i hnd
    omega

/-- Witness for C4 on a one-member season: the member id map is duplicate-free
and member 1 appears at most once across the returned teams. -/
theorem C4_witness :
    (([⟨1, "A", "a", "M"⟩] : List MemberData).map
      (fun m => m.MemberId)).Nodup ∧
    ((get_mansfield_teams 2024
      (fun _ => [⟨"Mansfield", "Alpha", some 1, some 2, some 3, some 4,
        some 6, "Wednesday", "6:35/8:45PM"⟩]) [⟨1, "A", "a", "M"⟩]).map
      (fun t => t.members.countP (fun tm => tm.member_id == 1))).sum ≤ 1 :=
  ⟨by decide,
    (C4_first_record_wins 2024
      (fun _ => [⟨"Mansfield", "Alpha", some 1, some 2, some 3, some 4,
        some 6, "Wednesday", "6:35/8:45PM"⟩]) [⟨1, "A", "a", "M"⟩]
      (by decide)).2.2 1⟩

/-- C6: when the year's member-list cache file exists and the team-record
cache file has an entry for every male member of that list, re-running the
aggregation's data-access loop performs zero network requests — both
client-fetch branches are unreachable. -/
theorem C6_cached_no_network (w : World) (ms : List MemberData)
    (doc : List (List Nat × List TeamEntry))
    (hms : w.memberJsonFile = some ms)
    (hdoc : w.teamDataFile = some doc)
    (hall : ∀ mem ∈ ms, mem.Gender = "M" →
      ((decodeKeys doc).find? (fun kv => kv.1 == mem.MemberId)).isSome) :
    (aggregationRun w).calls = 0 := by
  have hmj : season_get_members_json w = { val := ms, world := w, calls := 0 } := by
    unfold season_get_members_json
    rw [hms]
  show ((season_get_members_json w).val.foldl aggStep
    { world := (season_get_members_json w).world, cache := none,
      calls := (season_get_members_json w).calls }).calls = 0
  rw [hmj]
  exact agg_fold_cached w doc hdoc ms hall none 0 (Or.inl rfl)

/-- Witness for C6: a fully populated cache for a one-member season yields a
zero network-call run. -/
theorem C6_witness :
    (aggregationRun
      { memberJsonFile := some [⟨1, "A", "a", "M"⟩]
        teamDataFile := some [([1], [])]
        netMembers := []
        netTeams := fun _ => [] }).calls = 0 :=
  C6_cached_no_network _ [⟨1, "A", "a", "M"⟩] [([1], [])] rfl rfl (by decide)

/-- C7: fetching a not-yet-cached member's team data stores the fetched
records under the member id, rewrites the cache file as the stringified-key
encoding of the in-memory dict, and decoding that file recovers the dict
exactly (`int(key)` of the decimal form is the identity); a fresh season
instance re-reading the written file then returns the identical records with
zero network calls. -/
theorem C7_roundtrip (w : World) (d0 : List (Nat × List TeamEntry)) (M : Nat)
    (hmiss : d0.find? (fun kv => kv.1 == M) = none) :
    (season_get_member_team_data w (some d0) M).val = w.netTeams M ∧
    (season_get_member_team_data w (some d0) M).cache =
      d0 ++ [(M, w.netTeams M)] ∧
    (season_get_member_team_data w (some d0) M).world.teamDataFile =
      some (encodeKeys ((season_get_member_team_data w (some d0) M).cache)) ∧
    decodeKeys (encodeKeys ((season_get_member_team_data w (some d0) M).cache))
      = (season_get_member_team_data w (some d0) M).cache ∧
    (season_get_member_team_data
      ((season_get_member_team_data w (some d0) M).world) none M).val =
      (season_get_member_team_data w (some d0) M).val ∧
    (season_get_member_team_data
      ((season_get_member_team_data w (some d0) M).world) none M).calls = 0 := by
  rw [sgmtd_miss w d0 M hmiss]
  have hld : loadTeamDatas
      { w with
        teamDataFile := some (encodeKeys (d0 ++ [(M, w.netTeams M)])) } =
      d0 ++ [(M, w.netTeams M)] := by
    unfold loadTeamDatas
    show decodeKeys (encodeKeys (d0 ++ [(M, w.netTeams M)])) = _
    exact decodeKeys_encodeKeys _
  have hfind2 : (d0 ++ [(M, w.netTeams M)]).find? (fun kv => kv.1 == M) =
      some (M, w.netTeams M) := by
    rw [List.find?_append, hmiss, Option.none_or,
      List.find?_cons_of_pos
        (p := fun kv : Nat × List TeamEntry => kv.1 == M) []
        (beq_self_eq_true M)]
  refine ⟨rfl, rfl, rfl, decodeKeys_encodeKeys _, ?_, ?_⟩
  · rw [sgmtd_none_load, hld, sgmtd_hit _ _ _ _ hfind2]
  · rw [sgmtd_none_load, hld, sgmtd_hit _ _ _ _ hfind2]

/-- Witness for C7 at an empty starting dict and member 5. -/
theorem C7_witness :
    (season_get_member_team_data
      { memberJsonFile := none, teamDataFile := none, netMembers := [],
        netTeams := fun _ => [] } (some []) 5).val = [] ∧
    (season_get_member_team_data
      ((season_get_member_team_data
        { memberJsonFile := none, teamDataFile := none, netMembers := [],
          netTeams := fun _ => [] } (some []) 5).world) none 5).calls = 0 :=
  ⟨(C7_roundtrip _ [] 5 (by decide)).1,
   (C7_roundtrip _ [] 5 (by decide)).2.2.2.2.2⟩

/-- C9: in the built export document the cards are sorted by team (skip)
display name in ascending string order, each card's members are sorted by the
fixed position priority used by `position_order`, the named priorities are
strictly increasing Lead < Second < Vice < Skip < Fifth, and any missing or
unrecognized position gets the fallback key 99, after every named position. -/
theorem C9_sorted_export (embed_avatars : Bool)
    (avatarPaths : Nat → Option String) (b64 : String → Option String)
    (relpathOf : String → String) (teams : List Team) :
    List.Pairwise (fun a b : TeamCard => a.team_name ≤ b.team_name)
      (build_team_cards embed_avatars avatarPaths b64 relpathOf teams) ∧
    (∀ card ∈ build_team_cards embed_avatars avatarPaths b64 relpathOf teams,
      List.Pairwise (fun a b : CardMember =>
        position_order a.position ≤ position_order b.position) card.members) ∧
    (position_order (some "Lead") < position_order (some "Second") ∧
      position_order (some "Second") < position_order (some "Vice") ∧
      position_order (some "Vice") < position_order (some "Skip") ∧
      position_order (some "Skip") < position_order (some "Fifth")) ∧
    (∀ p : Option String,
      p ∉ [some "Lead", some "Second", some "Vice", some "Skip", some "Fifth"]
      → position_order p = 99) ∧
    (∀ p ∈ [some "Lead", some "Second", some "Vice", some "Skip",
      some "Fifth"], position_order p < 99) := by
  refine ⟨?_, ?_, by decide, ?_, by decide⟩
  · unfold build_team_cards
    have hp := @List.sorted_mergeSort TeamCard cardLe cardLe_trans
      cardLe_total
      (teams.map (mkTeamCard embed_avatars avatarPaths b64 relpathOf))
    exact hp.imp (fun h => by
      unfold cardLe at h
      exact decide_eq_true_eq.mp h)
  · intro card hcard
    unfold build_team_cards at hcard
    have hmem : card ∈
        teams.map (mkTeamCard embed_avatars avatarPaths b64 relpathOf) :=
      (List.mergeSort_perm _ cardLe).mem_iff.mp hcard
    rcases List.mem_map.mp hmem with ⟨t, ht, hcardeq⟩
    rw [← hcardeq]
    show List.Pairwise _ ((t.members.mergeSort memberLe).map
      (mkCardMember embed_avatars avatarPaths b64 relpathOf))
    rw [List.pairwise_map]
    have hs := @List.sorted_mergeSort TeamMember memberLe memberLe_trans
      memberLe_total t.members
    exact hs.imp (fun h => by
      rw [mkCardMember_position, mkCardMember_position]
      unfold memberLe at h
      exact decide_eq_true_eq.mp h)
  · intro p hp
    have n1 : ¬ (p == some "Lead") = true :=
      fun hb => hp (by rw [beq_iff_eq.mp hb]; simp)
    have n2 : ¬ (p == some "Second") = true :=
      fun hb => hp (by rw [beq_iff_eq.mp hb]; simp)
    have n3 : ¬ (p == some "Vice") = true :=
      fun hb => hp (by rw [beq_iff_eq.mp hb]; simp)
    have n4 : ¬ (p == some "Skip") = true :=
      fun hb => hp (by rw [beq_iff_eq.mp hb]; simp)
    have n5 : ¬ (p == some "Fifth") = true :=
      fun hb => hp (by rw [beq_iff_eq.mp hb]; simp)
    unfold position_order
    rw [if_neg n1, if_neg n2, if_neg n3, if_neg n4, if_neg n5]

/-- Witness for C9 on a concrete two-member team. -/
theorem C9_witness :
    List.Pairwise (fun a b : TeamCard => a.team_name ≤ b.team_name)
      (build_team_cards true (fun _ => none) (fun _ => none) (fun s => s)
        [⟨"Alpha", some 1, some 2, some 3, some 4, some 6, "Wednesday",
          "6:35/8:45PM", "Mansfield", 2024,
          [⟨1, "A", "a", "A a", some "Skip"⟩,
           ⟨2, "B", "b", "B b", some "Lead"⟩]⟩]) :=
  (C9_sorted_export true (fun _ => none) (fun _ => none) (fun s => s)
    [⟨"Alpha", some 1, some 2, some 3, some 4, some 6, "Wednesday",
      "6:35/8:45PM", "Mansfield", 2024,
      [⟨1, "A", "a", "A a", some "Skip"⟩,
       ⟨2, "B", "b", "B b", some "Lead"⟩]⟩]).1
